import Mathlib

/-
Verification development for the pally web-content pipeline.

The TypeScript sources are shallowly embedded as Lean definitions:

* pure string processing (tokenizer, text preparation) is embedded over
  `List Char`, with only structural recursion so that every definition is
  kernel-executable;
* the JavaScript `Map` used as the sparse-vector vocabulary is embedded as an
  insertion-ordered association list (`Vocab`), matching `Map` iteration
  order and `Map.size`;
* floating point scores (`Math.log(1 + freq) / Math.log(1 + tokens.length)`)
  are embedded as an abstract rational-valued scoring function `ScoreFun`;
  all verified properties of the builder hold for every scoring function,
  and concrete runs instantiate it with a rational witness function;
* effectful steps (embedding calls, vector-store upserts, the browser, the
  language model) are embedded by explicit environment parameters describing
  the outcome of each external call, and by returning the list of external
  calls that were issued, so that "does not call X" is a provable statement;
* JavaScript exceptions are embedded as values (`JSError`): a `catch` block
  becomes a `match` on an `Except` outcome.
-/

/-! ## Data model (src/lib/qdrant.ts) -/

/-- Sparse vector as in `openai.ts`: parallel `indices` and `values` arrays. -/
structure SparseVector where
  indices : List Nat
  values : List ℚ
deriving DecidableEq, Repr

/-- Document status field: `'success' | 'failed'`. -/
inductive DocStatus
  | success
  | failed
deriving DecidableEq, Repr

/-- `WebPageDocument` from `qdrant.ts`. The `scrapedAt : Date` field is
omitted: wall-clock time does not enter any verified property. -/
structure WebPageDocument where
  id : String
  url : String
  title : String
  content : String
  description : Option String
  domain : String
  contentLength : Nat
  status : DocStatus
  error : Option String
deriving DecidableEq, Repr

/-! ## Sparse vector builder (openai.ts: tokenize, stopWords, generateSparseVector) -/

/-- The stop-word set of `openai.ts`. -/
def stopWords : List String :=
  ["the", "a", "an", "and", "or", "but", "in", "on", "at", "to", "for", "of", "with", "by",
   "is", "are", "was", "were", "be", "been", "have", "has", "had", "do", "does", "did",
   "will", "would", "could", "should", "may", "might", "can", "this", "that", "these", "those"]

/-- `isStopWord` from `openai.ts`. -/
def isStopWord (w : String) : Bool :=
  stopWords.contains w

/-- A regex `\w` character: ASCII letter, digit or underscore. -/
def isWordChar (c : Char) : Bool :=
  c.isAlphanum || c = '_'

/-- One character of the `replace(/[^\w\s]/g, ' ')` step: non-word,
non-whitespace characters become a space. -/
def normalizeChar (c : Char) : Char :=
  if isWordChar c || c.isWhitespace then c else ' '

/-- Split a character list at whitespace runs (the `split(/\s+/)` step);
the accumulator holds the current word reversed. Empty fragments are not
produced; they would in any case be discarded by the length filter. -/
def splitWords : List Char → List Char → List (List Char)
  | [], acc => if acc.isEmpty then [] else [acc.reverse]
  | c :: cs, acc =>
    if c.isWhitespace then
      if acc.isEmpty then splitWords cs [] else acc.reverse :: splitWords cs []
    else
      splitWords cs (c :: acc)

/-- The two token filters of `tokenize`: length strictly between 2 and 20,
and not a stop word. -/
def keepToken (w : List Char) : Bool :=
  2 < w.length && w.length < 20 && !(isStopWord (String.mk w))

/-- `tokenize` from `openai.ts`: lowercase, replace non-word characters by
spaces, split on whitespace, filter by length and stop words. -/
def tokenize (text : String) : List String :=
  ((splitWords ((text.toList.map Char.toLower).map normalizeChar) []).filter keepToken).map
    (fun w => String.mk w)

/-- One step of the term-frequency accumulation: increment the count of a
token in place, or append it with count 1 (JavaScript `Map` preserves
insertion order, and `set` on an existing key keeps its position). -/
def bumpTF : List (String × Nat) → String → List (String × Nat)
  | [], t => [(t, 1)]
  | (s, n) :: rest, t =>
    if s = t then (s, n + 1) :: rest else (s, n) :: bumpTF rest t

/-- The `termFreq` map of `generateSparseVector`, in `Map` iteration order
(first-occurrence order of the tokens). -/
def termFreq (tokens : List String) : List (String × Nat) :=
  tokens.foldl bumpTF []

/-- The vocabulary `Map<string, number>`, as an insertion-ordered
association list. -/
abbrev Vocab := List (String × Nat)

/-- Abstract stand-in for the floating-point score
`Math.log(1 + freq) / Math.log(1 + tokens.length)`, as a function of the
term frequency and the token count. All verified properties of the builder
hold for every such function. -/
abbrev ScoreFun := Nat → Nat → ℚ

/-- The body of the `termFreq.forEach` loop of `generateSparseVector`:
resolve or allocate the vocabulary id of the term, then push the
`(index, value)` pair if the score clears the `> 0.01` threshold. The fresh
id is the current vocabulary size, exactly as `nextIndex++` does (the
captured `nextIndex` starts at `vocab.size` and the map grows by one entry
per allocation, so the two stay equal). -/
def gsvStep (score : ScoreFun) (tokenCount : Nat)
    (st : Vocab × List Nat × List ℚ) (entry : String × Nat) :
    Vocab × List Nat × List ℚ :=
  let vocab := st.1
  let resolved :=
    match vocab.lookup entry.1 with
    | some i => (i, vocab)
    | none => (vocab.length, vocab ++ [(entry.1, vocab.length)])
  let sc := score entry.2 tokenCount
  if mkRat 1 100 < sc then
    (resolved.2, st.2.1 ++ [resolved.1], st.2.2 ++ [sc])
  else
    (resolved.2, st.2.1, st.2.2)

/-- `generateSparseVector` from `openai.ts`. The optional `vocabulary`
parameter is made explicit (`[]` embeds a call without the argument, which
creates a fresh `new Map()`), and the mutated vocabulary is returned. -/
def generateSparseVector (score : ScoreFun) (text : String) (vocabulary : Vocab) :
    SparseVector × Vocab :=
  let tokens := tokenize text
  let st := (termFreq tokens).foldl (gsvStep score tokens.length) (vocabulary, [], [])
  (⟨st.2.1, st.2.2⟩, st.1)

/-! ## Embedding text preparation (openai.ts: prepareTextForEmbedding) -/

/-- Collapse every maximal run of whitespace to a single space
(the `replace(/\s+/g, ' ')` step); the flag records whether the previous
character was whitespace. -/
def squeezeWsAux : List Char → Bool → List Char
  | [], _ => []
  | c :: cs, prevWs =>
    if c.isWhitespace then
      if prevWs then squeezeWsAux cs true else ' ' :: squeezeWsAux cs true
    else
      c :: squeezeWsAux cs false

/-- The `trim()` step: drop whitespace from both ends. -/
def trimChars (cs : List Char) : List Char :=
  (((cs.dropWhile Char.isWhitespace).reverse).dropWhile Char.isWhitespace).reverse

/-- The `join(' ')` step over the non-empty parts. -/
def joinWithSpace : List (List Char) → List Char
  | [] => []
  | [w] => w
  | w :: ws => w ++ ' ' :: joinWithSpace ws

/-- `prepareTextForEmbedding` from `openai.ts`: keep the non-empty parts of
title, description, content; join with spaces; collapse whitespace; trim;
truncate to 8000 characters. -/
def prepareTextForEmbedding (title content : String) (description : Option String) : String :=
  let descStr := match description with | some d => d | none => ""
  let parts := ([title, descStr, content]).filter (fun s => !(s == ""))
  let joined := joinWithSpace (parts.map String.toList)
  String.mk ((trimChars (squeezeWsAux joined false)).take 8000)

/-! ## Ingestion pipeline (src/lib/processor.ts) -/

/-- `ProcessingStats` from `processor.ts`. The `startTime`, `endTime` and
`duration` fields are omitted: wall-clock time does not enter any verified
property. -/
structure ProcessingStats where
  total : Nat
  processed : Nat
  successful : Nat
  failed : Nat
  skipped : Nat
deriving DecidableEq, Repr

/-- The stats object after the reset at the start of `processAllWebsites`,
once `total` has been set to the number of deduplicated URLs. -/
def resetStats (total : Nat) : ProcessingStats :=
  { total := total, processed := 0, successful := 0, failed := 0, skipped := 0 }

/-- External calls issued by the per-document processing path: a dense
embedding request and a vector-store upsert. -/
inductive PipelineEffect
  | embedCall (text : String)
  | upsertCall (docId : String)
deriving DecidableEq, Repr

/-- Outcome of the external embedding and upsert calls for one document:
both succeed, the embedding call throws, or the upsert throws. -/
inductive EmbedUpsertOutcome
  | ok
  | embedErr (msg : String)
  | upsertErr (msg : String)
deriving DecidableEq, Repr

/-- Environment of one ingestion run: what the embedding service and the
vector store do for each document. -/
abbrev IngestEnv := WebPageDocument → EmbedUpsertOutcome

/-- `processSuccessfulScrape` from `processor.ts`. Returns the updated stats
and the list of external calls issued. Content shorter than 100 characters
is skipped before any external call; any exception from the embedding or the
upsert is caught here and counted as `failed` (it never escapes). -/
def processSuccessfulScrape (env : IngestEnv) (doc : WebPageDocument)
    (stats : ProcessingStats) : ProcessingStats × List PipelineEffect :=
  if doc.content.length < 100 then
    ({ stats with skipped := stats.skipped + 1 }, [])
  else
    let text := prepareTextForEmbedding doc.title doc.content doc.description
    match env doc with
    | .embedErr _ => ({ stats with failed := stats.failed + 1 }, [.embedCall text])
    | .upsertErr _ =>
      ({ stats with failed := stats.failed + 1 }, [.embedCall text, .upsertCall doc.id])
    | .ok =>
      ({ stats with successful := stats.successful + 1 }, [.embedCall text, .upsertCall doc.id])

/-- `ScrapeResult` from `scraper.ts`. -/
structure ScrapeResult where
  success : Bool
  document : Option WebPageDocument
  error : Option String
deriving DecidableEq, Repr

/-- One iteration of the `for (const result of scrapeResults)` loop of
`processBatch`: increment `processed`, then either process the successful
document or count a direct scrape failure. -/
def batchStep (env : IngestEnv) (acc : ProcessingStats × List PipelineEffect)
    (r : ScrapeResult) : ProcessingStats × List PipelineEffect :=
  let s1 := { acc.1 with processed := acc.1.processed + 1 }
  match r.success, r.document with
  | true, some d =>
    let out := processSuccessfulScrape env d s1
    (out.1, acc.2 ++ out.2)
  | _, _ => ({ s1 with failed := s1.failed + 1 }, acc.2)

/-- `processBatch` from `processor.ts`. Accumulates the external calls
issued. -/
def processBatch (env : IngestEnv) (results : List ScrapeResult)
    (stats : ProcessingStats) : ProcessingStats × List PipelineEffect :=
  results.foldl (batchStep env) (stats, [])

/-- One iteration of the batch loop of `processAllWebsites`. -/
def runBatchStep (env : IngestEnv) (acc : ProcessingStats × List PipelineEffect)
    (b : List ScrapeResult) : ProcessingStats × List PipelineEffect :=
  let out := processBatch env b acc.1
  (out.1, acc.2 ++ out.2)

/-- The batch loop of `processAllWebsites`: batches are processed strictly
in sequence. -/
def processBatches (env : IngestEnv) (batches : List (List ScrapeResult))
    (stats : ProcessingStats) : ProcessingStats × List PipelineEffect :=
  batches.foldl (runBatchStep env) (stats, [])

/-- The stats invariant that actually holds in `processor.ts`: every
consumed scrape result is counted in `processed` and in exactly one of
`successful`, `failed`, `skipped`. -/
def statsInv (s : ProcessingStats) : Prop :=
  s.processed = s.successful + s.failed + s.skipped

instance (s : ProcessingStats) : Decidable (statsInv s) := by
  unfold statsInv; infer_instance

/-! ## Scraper (src/lib/scraper.ts) -/

/-- A thrown JavaScript value: an `Error` carrying a message, or a non-Error
value (whose message the source replaces by `'Unknown error'`). -/
inductive JSError
  | jsErr (msg : String)
  | nonError
deriving DecidableEq, Repr

/-- The `error instanceof Error ? error.message : 'Unknown error'`
expression. -/
def jsMessage : JSError → String
  | .jsErr m => m
  | .nonError => "Unknown error"

/-- Result of `extractContent` (scraper.ts): the normalized title, content
and optional description of a page. -/
structure ExtractedContent where
  title : String
  content : String
  description : Option String
deriving DecidableEq, Repr

/-- Fallback domain used by `extractDomain` when `new URL(url)` throws. -/
def unknownDomain : String := "unknown"

/-- `extractDomain` from `scraper.ts`: hostname of the URL, or `"unknown"`
when URL parsing throws. URL parsing is an external (platform) builtin,
embedded as a `String → Option String` parameter. -/
def extractDomain (parseHostname : String → Option String) (url : String) : String :=
  match parseHostname url with
  | some h => h
  | none => unknownDomain

/-- Message of the `TypeError` thrown by `new URL` on a malformed URL. -/
def invalidUrlMsg : String := "Invalid URL"

/-- The catch block of `scrapePage`: a failed document with empty title and
content, best-effort domain, and the error message. -/
def scrapeFailure (parseHostname : String → Option String) (newId url : String)
    (e : JSError) : ScrapeResult :=
  { success := false
    document := some
      { id := newId, url := url, title := "", content := "", description := none
        domain := extractDomain parseHostname url, contentLength := 0
        status := .failed, error := some (jsMessage e) }
    error := some (jsMessage e) }

/-- `scrapePage` from `scraper.ts`. The whole browser interaction up to and
including `extractContent` is embedded as an `Except` outcome (`attempt`);
on the success path the source evaluates `new URL(url).hostname`, whose own
failure is caught by the same catch block. The function is total: no
exception escapes this boundary. -/
def scrapePage (parseHostname : String → Option String) (newId : String)
    (attempt : Except JSError ExtractedContent) (url : String) : ScrapeResult :=
  match attempt with
  | .ok ext =>
    match parseHostname url with
    | some host =>
      { success := true
        document := some
          { id := newId, url := url, title := ext.title, content := ext.content
            description := ext.description, domain := host
            contentLength := ext.content.length, status := .success, error := none }
        error := none }
    | none => scrapeFailure parseHostname newId url (JSError.jsErr invalidUrlMsg)
  | .error e => scrapeFailure parseHostname newId url e

/-! ## Batch scheduler (scraper.ts: scrapeMultiple) -/

/-- Settled outcome of one scrape task, as observed by
`Promise.allSettled`: fulfilled with a `ScrapeResult`, or rejected with a
thrown value. -/
inductive TaskOutcome
  | fulfilled (r : ScrapeResult)
  | rejected (e : JSError)

/-- The per-outcome branch of `scrapeMultiple`: a fulfilled task contributes
its value, a rejected task is converted to a failed result with no
document. -/
def settleOutcome : TaskOutcome → ScrapeResult
  | .fulfilled r => r
  | .rejected e => { success := false, document := none, error := some (jsMessage e) }

/-- Chunking with explicit fuel (the list length), so that the recursion is
structural and kernel-executable. -/
def chunkGo (c : Nat) : Nat → List α → List (List α)
  | 0, _ => []
  | _, [] => []
  | fuel + 1, x :: xs => (x :: xs).take c :: chunkGo c fuel ((x :: xs).drop c)

/-- Partition a list into consecutive windows of size `c` (the
`urls.slice(i, i + concurrency)` loop of `scrapeMultiple`). -/
def chunkList (c : Nat) (xs : List α) : List (List α) :=
  chunkGo c xs.length xs

/-- `scrapeMultiple` from `scraper.ts`: process the URL list window by
window; within a window `Promise.allSettled` returns the outcomes in task
order (not completion order), and each outcome is appended positionally. -/
def scrapeMultiple (task : String → TaskOutcome) (concurrency : Nat)
    (urls : List String) : List ScrapeResult :=
  ((chunkList concurrency urls).map (fun batch => batch.map (fun u => settleOutcome (task u)))).flatten

/-! ## Chat response (src/lib/openai.ts: generateChatResponse) -/

/-- `SearchResult` fields consumed by `generateChatResponse`. -/
structure SearchResult where
  title : String
  url : String
  content : String
  score : ℚ
deriving DecidableEq, Repr

/-- A call to the external chat model, with the system prompt and the user
query it was given. -/
inductive ChatEffect
  | modelCall (systemPrompt : String) (userQuery : String)
deriving DecidableEq, Repr

/-- The fixed message returned when there are no search results. -/
def noResultsMessage : String :=
  "I couldn\x27t find any relevant information to answer your question. Please try rephrasing your query or asking about different topics."

/-- One numbered source block of the context: title, URL, and the first
1000 characters of the content, with an ellipsis if truncated. -/
def sourceBlock (i : Nat) (r : SearchResult) : String :=
  let contentCut := String.mk (r.content.toList.take 1000)
  let ellipsis := if 1000 < r.content.length then "..." else ""
  "[" ++ toString (i + 1) ++ "] Source: " ++ r.title ++ " (" ++ r.url ++ ")\nContent: "
    ++ contentCut ++ ellipsis

/-- Separator between source blocks. -/
def blockSep : String := "\n\n"

/-- The context assembled from the top 5 search results. -/
def buildContext (results : List SearchResult) : String :=
  String.intercalate blockSep ((results.take 5).enum.map (fun p => sourceBlock p.1 p.2))

/-- The fixed part of the system prompt, before the scraped context. -/
def systemPromptHeader : String :=
  "You are a helpful AI assistant that answers questions based on web content that has been scraped and indexed. \n\nYour task is to:\n1. Answer the user\x27s question based ONLY on the provided context\n2. Always cite your sources using the source URLs\n3. Be concise but comprehensive\n4. If the context doesn\x27t contain enough information, say so clearly\n5. Format your response in a clear, readable way\n\nContext from web scraping:\n"

/-- `generateChatResponse` from `openai.ts`: with no search results, return
the fixed message without calling the model; otherwise build the context and
issue one model call. The external model is a parameter from system prompt
and query to its reply. -/
def generateChatResponse (model : String → String → String) (query : String)
    (searchResults : List SearchResult) : String × List ChatEffect :=
  if searchResults.isEmpty then
    (noResultsMessage, [])
  else
    let sys := systemPromptHeader ++ buildContext searchResults
    (model sys query, [ChatEffect.modelCall sys query])

/-! ## Hybrid search fusion

`hybridSearch` (qdrant.ts) issues two prefetches and requests
`fusion: 'rrf'` from the external vector store; the fusion computation
itself is not part of this repository's sources. It is therefore modelled
from the specification. -/

/-- Modelled from the spec: the RRF constant `k` ("standard value 60"); the
fusion computation of the external vector store invoked by `hybridSearch`
with `fusion: 'rrf'` is absent from the sources. -/
def rrfK : Nat := 60

/-- Modelled from the spec: zero-based position of a candidate in a ranked
list. -/
def rrfRank (l : List Nat) (x : Nat) : Option Nat :=
  l.findIdx? (fun y => y == x)

/-- Modelled from the spec: the contribution of one ranked list to a
candidate, `1 / (k + rank)` with one-based rank, and 0 when the candidate is
absent from the list. -/
def rrfTerm (l : List Nat) (x : Nat) : ℚ :=
  match rrfRank l x with
  | some i => mkRat 1 (rrfK + i + 1)
  | none => 0

/-- Rational addition computed on numerators and denominators (definitially
equal in value to `+`, but kernel-reducible on concrete inputs). -/
def addQ (a b : ℚ) : ℚ :=
  mkRat (a.num * b.den + b.num * a.den) (a.den * b.den)

/-- Modelled from the spec: the fused RRF score of a candidate is the sum of
the contributions of the dense and the sparse ranked lists. -/
def rrfScore (dense sparse : List Nat) (x : Nat) : ℚ :=
  addQ (rrfTerm dense x) (rrfTerm sparse x)

/-- Modelled from the spec: the candidate set of the fusion, every id that
appears in either ranked list. -/
def rrfCandidates (dense sparse : List Nat) : List Nat :=
  (dense ++ sparse).dedup

/-- Descending fused-score order on candidates. -/
def rrfDesc (dense sparse : List Nat) (a b : Nat) : Prop :=
  rrfScore dense sparse b ≤ rrfScore dense sparse a

instance (dense sparse : List Nat) : DecidableRel (rrfDesc dense sparse) :=
  fun a b =>
    inferInstanceAs (Decidable (rrfScore dense sparse b ≤ rrfScore dense sparse a))

/-- Modelled from the spec: sort the candidates by fused score descending
and return the top `limit` (ties are left to the sort's stable order, as the
spec leaves them to the store). -/
def rrfFuse (dense sparse : List Nat) (limit : Nat) : List Nat :=
  (List.insertionSort (rrfDesc dense sparse) (rrfCandidates dense sparse)).take limit

/-! ## Call-site mirrors and vocabulary predicates -/

/-- The ingestion call site (`processor.ts`, `processSuccessfulScrape`):
`generateSparseVector(textForEmbedding)` is called with no vocabulary
argument, so the builder runs on a fresh empty vocabulary. -/
def processorSparseCall (score : ScoreFun) (doc : WebPageDocument) : SparseVector × Vocab :=
  generateSparseVector score (prepareTextForEmbedding doc.title doc.content doc.description) []

/-- The retrieval call site (`app/api/search/route.ts`):
`generateSparseVector(query)` is called with no vocabulary argument, so the
builder runs on a fresh empty vocabulary. -/
def searchSparseCall (score : ScoreFun) (query : String) : SparseVector × Vocab :=
  generateSparseVector score query []

/-- Canonical vocabulary shape: the ids are exactly `0, 1, ..., size - 1` in
insertion order. Every vocabulary grown by the builder from the empty map
has this shape. -/
def vocabWF (v : Vocab) : Prop :=
  v.map Prod.snd = List.range v.length

instance (v : Vocab) : Decidable (vocabWF v) := by
  unfold vocabWF; infer_instance

/-- Sound vocabulary: ids are pairwise distinct and all smaller than the
vocabulary size (so a freshly allocated id can never collide). -/
def goodVocab (v : Vocab) : Prop :=
  (v.map Prod.snd).Nodup ∧ ∀ i ∈ v.map Prod.snd, i < v.length

instance (v : Vocab) : Decidable (goodVocab v) := by
  unfold goodVocab; exact instDecidableAnd

/-- Repeated builder calls threading one vocabulary state. -/
def ingestVocab (score : ScoreFun) (texts : List String) (v : Vocab) : Vocab :=
  texts.foldl (fun acc t => (generateSparseVector score t acc).2) v

/-! ## Concrete example inputs -/

/-- Rational witness scoring function for concrete runs: `f / (n + 1)`. It
clears the `> 0.01` threshold on every input that occurs in the examples,
as the floating-point score does (for `freq ≥ 1` the real score
`ln(1+f)/ln(1+n)` exceeds 0.01 whenever `1 + n < 2^100`). -/
def scoreEx : ScoreFun := fun f n => mkRat f (n + 1)

/-- Document body of 109 characters (10 repetitions of two terms), long
enough to pass the minimum-content-length filter. -/
def exDocContent : String :=
  "alpha beta alpha beta alpha beta alpha beta alpha beta alpha beta alpha beta alpha beta alpha beta alpha beta"

/-- A successfully scraped example document. -/
def exDoc : WebPageDocument :=
  { id := "doc-1", url := "https://ex.test/a", title := "", content := exDocContent
    description := none, domain := "ex.test", contentLength := 109
    status := .success, error := none }

/-- An example retrieval query consisting of the document's second term. -/
def exQuery : String := "beta"

/-- A successfully scraped document whose content is shorter than 100
characters. -/
def shortDoc : WebPageDocument :=
  { id := "doc-2", url := "https://short.test/", title := "t", content := "short"
    description := none, domain := "short.test", contentLength := 5
    status := .success, error := none }

/-- Ingestion environment in which the embedding service and the vector
store always succeed. -/
def envOk : IngestEnv := fun _ => .ok

/-- An injective vocabulary (one binding) whose single id equals its size. -/
def vocabEx : Vocab := [("aaa", 1)]

/-- Text whose two tokens are the bound term and one new term. -/
def exTextAB : String := "aaa bbb"

/-- The scrape result delivering `shortDoc` successfully. -/
def shortResult : ScrapeResult :=
  { success := true, document := some shortDoc, error := none }

/-- Example URL list for the batch scheduler. -/
def urlsEx : List String :=
  ["https://a.test/", "https://b.test/", "https://c.test/"]

/-- The URL whose task rejects in the batch-scheduler example. -/
def urlB : String := "https://b.test/"

/-- Example task assignment: the middle URL rejects at the task level, the
others fulfil. -/
def taskEx : String → TaskOutcome := fun u =>
  if u = urlB then TaskOutcome.rejected JSError.nonError
  else TaskOutcome.fulfilled { success := true, document := none, error := none }

/-! ## Association-list lookup lemmas -/

theorem lookup_mem {t : String} {i : Nat} :
    ∀ {v : Vocab}, v.lookup t = some i → (t, i) ∈ v := by
  intro v
  induction v with
  | nil => intro h; simp [List.lookup] at h
  | cons p rest ih =>
    intro h
    obtain ⟨k, j⟩ := p
    simp only [List.lookup] at h
    by_cases hk : t = k
    · subst hk
      simp at h
      subst h
      exact List.mem_cons_self _ _
    · have hbeq : (t == k) = false := beq_false_of_ne hk
      rw [hbeq] at h
      exact List.mem_cons_of_mem _ (ih h)

theorem lookup_append_left {t : String} {i : Nat} :
    ∀ {v w : Vocab}, v.lookup t = some i → (v ++ w).lookup t = some i := by
  intro v w
  induction v with
  | nil => intro h; simp [List.lookup] at h
  | cons p rest ih =>
    intro h
    obtain ⟨k, j⟩ := p
    simp only [List.lookup] at h
    simp only [List.cons_append, List.lookup]
    cases hbeq : (t == k) with
    | true => rw [hbeq] at h; exact h
    | false => rw [hbeq] at h; exact ih h

theorem lookup_append_none {t : String} :
    ∀ {v w : Vocab}, v.lookup t = none → (v ++ w).lookup t = w.lookup t := by
  intro v w
  induction v with
  | nil => intro _; simp
  | cons p rest ih =>
    intro h
    obtain ⟨k, j⟩ := p
    simp only [List.lookup] at h
    simp only [List.cons_append, List.lookup]
    cases hbeq : (t == k) with
    | true => rw [hbeq] at h; exact absurd h (by simp)
    | false => rw [hbeq] at h; exact ih h

theorem lookup_self_append {t : String} {i : Nat} {v : Vocab}
    (h : v.lookup t = none) : (v ++ [(t, i)]).lookup t = some i := by
  rw [lookup_append_none h]
  simp [List.lookup]

/-- Distinct keys cannot share a value when the values are pairwise
distinct. -/
theorem lookup_inj :
    ∀ {v : Vocab}, (v.map Prod.snd).Nodup →
      ∀ {t1 t2 : String} {i : Nat},
        v.lookup t1 = some i → v.lookup t2 = some i → t1 = t2 := by
  intro v
  induction v with
  | nil => intro _ t1 t2 i h1; simp [List.lookup] at h1
  | cons p rest ih =>
    intro hn t1 t2 i h1 h2
    obtain ⟨k, j⟩ := p
    rw [List.map_cons, List.nodup_cons] at hn
    simp only [List.lookup] at h1 h2
    by_cases hk1 : t1 = k
    · by_cases hk2 : t2 = k
      · rw [hk1, hk2]
      · subst hk1
        simp at h1
        subst h1
        rw [beq_false_of_ne hk2] at h2
        exact absurd (List.mem_map_of_mem Prod.snd (lookup_mem h2)) hn.1
    · rw [beq_false_of_ne hk1] at h1
      by_cases hk2 : t2 = k
      · subst hk2
        simp at h2
        subst h2
        exact absurd (List.mem_map_of_mem Prod.snd (lookup_mem h1)) hn.1
      · rw [beq_false_of_ne hk2] at h2
        exact ih hn.2 h1 h2

/-! ## Vocabulary evolution of the sparse vector builder -/

theorem vocabWF_goodVocab {v : Vocab} (h : vocabWF v) : goodVocab v := by
  unfold vocabWF at h
  unfold goodVocab
  rw [h]
  exact ⟨List.nodup_range _, fun i hi => List.mem_range.mp hi⟩

theorem gsvStep_hit {score : ScoreFun} {n : Nat} {st : Vocab × List Nat × List ℚ}
    {t : String} {f : Nat} {i : Nat} (h : st.1.lookup t = some i) :
    gsvStep score n st (t, f) =
      if mkRat 1 100 < score f n then (st.1, st.2.1 ++ [i], st.2.2 ++ [score f n])
      else (st.1, st.2.1, st.2.2) := by
  simp only [gsvStep]
  rw [h]

theorem gsvStep_miss {score : ScoreFun} {n : Nat} {st : Vocab × List Nat × List ℚ}
    {t : String} {f : Nat} (h : st.1.lookup t = none) :
    gsvStep score n st (t, f) =
      if mkRat 1 100 < score f n then
        (st.1 ++ [(t, st.1.length)], st.2.1 ++ [st.1.length], st.2.2 ++ [score f n])
      else (st.1 ++ [(t, st.1.length)], st.2.1, st.2.2) := by
  simp only [gsvStep]
  rw [h]

/-- One loop step either keeps the vocabulary (term already bound) or
appends one fresh binding at id `size`. -/
theorem gsvStep_vocab (score : ScoreFun) (n : Nat) (st : Vocab × List Nat × List ℚ)
    (e : String × Nat) :
    ((gsvStep score n st e).1 = st.1 ∧ ∃ i, st.1.lookup e.1 = some i) ∨
    ((gsvStep score n st e).1 = st.1 ++ [(e.1, st.1.length)] ∧ st.1.lookup e.1 = none) := by
  obtain ⟨t, f⟩ := e
  cases h : st.1.lookup t with
  | some i =>
    left
    refine ⟨?_, i, rfl⟩
    rw [gsvStep_hit h]
    split <;> rfl
  | none =>
    right
    refine ⟨?_, rfl⟩
    rw [gsvStep_miss h]
    split <;> rfl

theorem vocabWF_append_fresh {v : Vocab} {t : String} (h : vocabWF v) :
    vocabWF (v ++ [(t, v.length)]) := by
  unfold vocabWF at h ⊢
  rw [List.map_append, h]
  simp [List.range_succ]

theorem goodVocab_append_fresh {v : Vocab} {t : String} (h : goodVocab v) :
    goodVocab (v ++ [(t, v.length)]) := by
  obtain ⟨hn, hb⟩ := h
  constructor
  · rw [List.map_append]
    refine List.Nodup.append hn (List.nodup_singleton _) ?_
    intro x hx hx1
    simp at hx1
    subst hx1
    exact absurd (hb _ hx) (lt_irrefl _)
  · intro i hi
    rw [List.map_append] at hi
    rcases List.mem_append.mp hi with h1 | h1
    · exact lt_of_lt_of_le (hb i h1) (by simp)
    · simp at h1
      subst h1
      simp

theorem vocabWF_gsvStep {score : ScoreFun} {n : Nat} {st : Vocab × List Nat × List ℚ}
    {e : String × Nat} (h : vocabWF st.1) : vocabWF (gsvStep score n st e).1 := by
  rcases gsvStep_vocab score n st e with ⟨h1, _⟩ | ⟨h1, _⟩
  · rw [h1]; exact h
  · rw [h1]; exact vocabWF_append_fresh h

theorem goodVocab_gsvStep {score : ScoreFun} {n : Nat} {st : Vocab × List Nat × List ℚ}
    {e : String × Nat} (h : goodVocab st.1) : goodVocab (gsvStep score n st e).1 := by
  rcases gsvStep_vocab score n st e with ⟨h1, _⟩ | ⟨h1, _⟩
  · rw [h1]; exact h
  · rw [h1]; exact goodVocab_append_fresh h

/-- Over the whole loop the vocabulary only grows by appending. -/
theorem gsvFold_vocab_ext (score : ScoreFun) (n : Nat) :
    ∀ (entries : List (String × Nat)) (st : Vocab × List Nat × List ℚ),
      ∃ rest, (entries.foldl (gsvStep score n) st).1 = st.1 ++ rest := by
  intro entries
  induction entries with
  | nil => intro st; exact ⟨[], by simp⟩
  | cons e es ih =>
    intro st
    rw [List.foldl_cons]
    obtain ⟨r2, h2⟩ := ih (gsvStep score n st e)
    rcases gsvStep_vocab score n st e with ⟨h1, _⟩ | ⟨h1, _⟩
    · exact ⟨r2, by rw [h2, h1]⟩
    · exact ⟨(e.1, st.1.length) :: r2, by rw [h2, h1, List.append_assoc]; rfl⟩

theorem vocabWF_gsvFold (score : ScoreFun) (n : Nat) :
    ∀ (entries : List (String × Nat)) (st : Vocab × List Nat × List ℚ),
      vocabWF st.1 → vocabWF (entries.foldl (gsvStep score n) st).1 := by
  intro entries
  induction entries with
  | nil => intro st h; exact h
  | cons e es ih =>
    intro st h
    rw [List.foldl_cons]
    exact ih _ (vocabWF_gsvStep h)

theorem generateSparseVector_vocab_ext (score : ScoreFun) (text : String) (v : Vocab) :
    ∃ rest, (generateSparseVector score text v).2 = v ++ rest :=
  gsvFold_vocab_ext score (tokenize text).length (termFreq (tokenize text)) (v, [], [])

theorem generateSparseVector_vocab_wf (score : ScoreFun) (text : String) {v : Vocab}
    (h : vocabWF v) : vocabWF (generateSparseVector score text v).2 :=
  vocabWF_gsvFold score (tokenize text).length (termFreq (tokenize text)) (v, [], []) h

theorem ingestVocab_ext (score : ScoreFun) :
    ∀ (texts : List String) (v : Vocab), ∃ rest, ingestVocab score texts v = v ++ rest := by
  intro texts
  induction texts with
  | nil => intro v; exact ⟨[], by simp [ingestVocab]⟩
  | cons t ts ih =>
    intro v
    obtain ⟨r1, h1⟩ := generateSparseVector_vocab_ext score t v
    obtain ⟨r2, h2⟩ := ih (generateSparseVector score t v).2
    refine ⟨r1 ++ r2, ?_⟩
    unfold ingestVocab at h2 ⊢
    rw [List.foldl_cons, h2, h1, List.append_assoc]

theorem ingestVocab_wf (score : ScoreFun) :
    ∀ (texts : List String) {v : Vocab}, vocabWF v → vocabWF (ingestVocab score texts v) := by
  intro texts
  induction texts with
  | nil => intro v h; exact h
  | cons t ts ih =>
    intro v h
    unfold ingestVocab
    rw [List.foldl_cons]
    exact ih (generateSparseVector_vocab_wf score t h)

/-- C6: across repeated builder calls sharing one vocabulary state (any
canonically grown state, in particular the empty map), the vocabulary only
grows by appending: every old binding survives unchanged (ids are never
reassigned and never decrease), the id column stays exactly
`0, ..., size-1`, so each new term receives the next unused id. -/
theorem c6_vocab_monotone (score : ScoreFun) (texts : List String) (vocab : Vocab)
    (h : vocabWF vocab) :
    (∃ rest, ingestVocab score texts vocab = vocab ++ rest) ∧
    vocabWF (ingestVocab score texts vocab) ∧
    (∀ t i, vocab.lookup t = some i → (ingestVocab score texts vocab).lookup t = some i) := by
  refine ⟨ingestVocab_ext score texts vocab, ingestVocab_wf score texts h, ?_⟩
  intro t i hl
  obtain ⟨rest, hr⟩ := ingestVocab_ext score texts vocab
  rw [hr]
  exact lookup_append_left hl

/-- Witness for C6 at a concrete input: one call on the empty vocabulary. -/
theorem c6_vocab_monotone_witness :
    vocabWF ([] : Vocab) ∧
    ((∃ rest, ingestVocab scoreEx [exTextAB] [] = [] ++ rest) ∧
      vocabWF (ingestVocab scoreEx [exTextAB] []) ∧
      (∀ t i, List.lookup t ([] : Vocab) = some i →
        (ingestVocab scoreEx [exTextAB] []).lookup t = some i)) :=
  ⟨by decide, c6_vocab_monotone scoreEx [exTextAB] [] (by decide)⟩

/-! ## Shape of the produced sparse vectors -/

theorem bumpTF_keys (t : String) :
    ∀ m : List (String × Nat), (bumpTF m t).map Prod.fst =
      if t ∈ m.map Prod.fst then m.map Prod.fst else m.map Prod.fst ++ [t] := by
  intro m
  induction m with
  | nil => simp [bumpTF]
  | cons p rest ih =>
    obtain ⟨s, n⟩ := p
    by_cases hs : s = t
    · subst hs
      simp [bumpTF]
    · simp only [bumpTF, if_neg hs, List.map_cons]
      rw [ih]
      by_cases ht : t ∈ rest.map Prod.fst
      · rw [if_pos ht, if_pos (List.mem_cons_of_mem _ ht)]
      · rw [if_neg ht, if_neg ?_]
        · rfl
        · intro hmem
          rcases List.mem_cons.mp hmem with h1 | h1
          · exact hs h1.symm
          · exact ht h1

theorem termFreq_keys_nodup (tokens : List String) :
    ((termFreq tokens).map Prod.fst).Nodup := by
  unfold termFreq
  suffices h : ∀ (ts : List String) (m : List (String × Nat)),
      (m.map Prod.fst).Nodup → ((ts.foldl bumpTF m).map Prod.fst).Nodup by
    exact h tokens [] (by simp)
  intro ts
  induction ts with
  | nil => intro m hm; exact hm
  | cons t ts ih =>
    intro m hm
    rw [List.foldl_cons]
    refine ih _ ?_
    rw [bumpTF_keys t m]
    by_cases ht : t ∈ m.map Prod.fst
    · rw [if_pos ht]; exact hm
    · rw [if_neg ht]
      refine List.Nodup.append hm (List.nodup_singleton _) ?_
      intro x hx hx1
      simp at hx1
      subst hx1
      exact ht hx

/-- The `indices` and `values` arrays grow in lockstep and only
above-threshold scores are pushed. -/
theorem gsvFold_values (score : ScoreFun) (n : Nat) :
    ∀ (entries : List (String × Nat)) (st : Vocab × List Nat × List ℚ),
      st.2.1.length = st.2.2.length → (∀ q ∈ st.2.2, mkRat 1 100 < q) →
      ((entries.foldl (gsvStep score n) st).2.1.length
          = (entries.foldl (gsvStep score n) st).2.2.length) ∧
      (∀ q ∈ (entries.foldl (gsvStep score n) st).2.2, mkRat 1 100 < q) := by
  intro entries
  induction entries with
  | nil => intro st h1 h2; exact ⟨h1, h2⟩
  | cons e es ih =>
    intro st h1 h2
    rw [List.foldl_cons]
    obtain ⟨t, f⟩ := e
    cases h : st.1.lookup t with
    | some i =>
      rw [gsvStep_hit h]
      by_cases hsc : mkRat 1 100 < score f n
      · rw [if_pos hsc]
        apply ih
        · simp [h1]
        · intro q hq
          rcases List.mem_append.mp hq with hq1 | hq1
          · exact h2 q hq1
          · simp at hq1
            subst hq1
            exact hsc
      · rw [if_neg hsc]
        exact ih st h1 h2
    | none =>
      rw [gsvStep_miss h]
      by_cases hsc : mkRat 1 100 < score f n
      · rw [if_pos hsc]
        apply ih
        · simp [h1]
        · intro q hq
          rcases List.mem_append.mp hq with hq1 | hq1
          · exact h2 q hq1
          · simp at hq1
            subst hq1
            exact hsc
      · rw [if_neg hsc]
        exact ih _ h1 h2

theorem generateSparseVector_lengths (score : ScoreFun) (text : String) (vocab : Vocab) :
    ((generateSparseVector score text vocab).1.indices.length
        = (generateSparseVector score text vocab).1.values.length) ∧
    (∀ q ∈ (generateSparseVector score text vocab).1.values, mkRat 1 100 < q) :=
  gsvFold_values score (tokenize text).length (termFreq (tokenize text)) (vocab, [], [])
    rfl (by intro q hq; simp at hq)

/-- Distinctness of the emitted indices: the invariant carries, for each
emitted index, a term of the vocabulary that owns it and is not among the
entries still to be processed. -/
theorem gsvFold_indices_nodup (score : ScoreFun) (n : Nat) :
    ∀ (entries : List (String × Nat)) (st : Vocab × List Nat × List ℚ),
      goodVocab st.1 →
      (entries.map Prod.fst).Nodup →
      st.2.1.Nodup →
      (∀ i ∈ st.2.1, ∃ t, t ∉ entries.map Prod.fst ∧ st.1.lookup t = some i) →
      (entries.foldl (gsvStep score n) st).2.1.Nodup := by
  intro entries
  induction entries with
  | nil => intro st _ _ h3 _; exact h3
  | cons e es ih =>
    intro st hgood hkeys hnd hwit
    rw [List.foldl_cons]
    obtain ⟨t0, f⟩ := e
    rw [List.map_cons, List.nodup_cons] at hkeys
    cases h : st.1.lookup t0 with
    | some j =>
      rw [gsvStep_hit h]
      by_cases hsc : mkRat 1 100 < score f n
      · rw [if_pos hsc]
        apply ih
        · exact hgood
        · exact hkeys.2
        · refine List.Nodup.append hnd (List.nodup_singleton _) ?_
          intro x hx hx1
          simp at hx1
          subst hx1
          obtain ⟨t, hts, htl⟩ := hwit x hx
          have heq : t = t0 := lookup_inj hgood.1 htl h
          exact hts (heq ▸ List.mem_cons_self _ _)
        · intro i hi
          rcases List.mem_append.mp hi with hi1 | hi1
          · obtain ⟨t, hts, htl⟩ := hwit i hi1
            exact ⟨t, fun hm => hts (List.mem_cons_of_mem _ hm), htl⟩
          · simp at hi1
            subst hi1
            exact ⟨t0, hkeys.1, h⟩
      · rw [if_neg hsc]
        apply ih st hgood hkeys.2 hnd
        intro i hi
        obtain ⟨t, hts, htl⟩ := hwit i hi
        exact ⟨t, fun hm => hts (List.mem_cons_of_mem _ hm), htl⟩
    | none =>
      rw [gsvStep_miss h]
      by_cases hsc : mkRat 1 100 < score f n
      · rw [if_pos hsc]
        apply ih
        · exact goodVocab_append_fresh hgood
        · exact hkeys.2
        · refine List.Nodup.append hnd (List.nodup_singleton _) ?_
          intro x hx hx1
          simp at hx1
          subst hx1
          obtain ⟨t, hts, htl⟩ := hwit _ hx
          have hmem := List.mem_map_of_mem Prod.snd (lookup_mem htl)
          exact absurd (hgood.2 _ hmem) (lt_irrefl _)
        · intro i hi
          rcases List.mem_append.mp hi with hi1 | hi1
          · obtain ⟨t, hts, htl⟩ := hwit i hi1
            exact ⟨t, fun hm => hts (List.mem_cons_of_mem _ hm), lookup_append_left htl⟩
          · simp at hi1
            subst hi1
            exact ⟨t0, hkeys.1, lookup_self_append h⟩
      · rw [if_neg hsc]
        apply ih
        · exact goodVocab_append_fresh hgood
        · exact hkeys.2
        · exact hnd
        · intro i hi
          obtain ⟨t, hts, htl⟩ := hwit i hi
          exact ⟨t, fun hm => hts (List.mem_cons_of_mem _ hm), lookup_append_left htl⟩

/-- C7 (amended): for every text and every scoring function the sparse
vector has `indices` and `values` of equal length and every value clears
the `> 0.01` threshold; and when the input vocabulary has pairwise distinct
ids all below its size (as every vocabulary grown by the builder does), the
indices are pairwise distinct. -/
theorem c7_sparse_vector_shape (score : ScoreFun) (text : String) (vocab : Vocab) :
    ((generateSparseVector score text vocab).1.indices.length
        = (generateSparseVector score text vocab).1.values.length) ∧
    (∀ q ∈ (generateSparseVector score text vocab).1.values, mkRat 1 100 < q) ∧
    (goodVocab vocab → (generateSparseVector score text vocab).1.indices.Nodup) := by
  obtain ⟨h1, h2⟩ := generateSparseVector_lengths score text vocab
  refine ⟨h1, h2, fun hg => ?_⟩
  exact gsvFold_indices_nodup score (tokenize text).length (termFreq (tokenize text))
    (vocab, [], []) hg (termFreq_keys_nodup _) List.nodup_nil
    (by intro i hi; simp at hi)

/-- Witness for C7 at a concrete input. -/
theorem c7_sparse_vector_shape_witness :
    goodVocab ([] : Vocab) ∧ (generateSparseVector scoreEx exTextAB []).1.indices.Nodup :=
  ⟨by decide, (c7_sparse_vector_shape scoreEx exTextAB []).2.2 (by decide)⟩

/-- C7 counterexample: the claim fails for a merely injective input
vocabulary. With the single (injective) binding `aaa ↦ 1`, the new term
`bbb` is allocated id `vocab.size = 1`, so the vector for `"aaa bbb"`
contains the index 1 twice. -/
theorem c7_injective_vocab_cex :
    (vocabEx.map Prod.fst).Nodup ∧ (vocabEx.map Prod.snd).Nodup ∧
    ¬ (generateSparseVector scoreEx exTextAB vocabEx).1.indices.Nodup := by
  decide

/-! ## Vocabulary sharing between ingestion and retrieval -/

/-- C2 (refuted — code bug): both call sites invoke `generateSparseVector`
without a vocabulary argument, so the document vector and the query vector
are each built against a fresh empty vocabulary rather than one shared
state. For the ingested document whose body repeats the terms alpha and
beta, the term of the query `"beta"` receives index 1 in the document
vector but index 0 in the query vector, so the two sparse vector spaces do
not agree. -/
theorem c2_vocabulary_not_shared :
    ((processorSparseCall scoreEx exDoc).2.lookup exQuery = some 1) ∧
    ((searchSparseCall scoreEx exQuery).2.lookup exQuery = some 0) ∧
    ((processorSparseCall scoreEx exDoc).1.indices = [0, 1]) ∧
    ((searchSparseCall scoreEx exQuery).1.indices = [0]) := by
  decide

/-! ## Processing statistics -/

/-- The outcome of one successfully scraped document on the stats object:
exactly one of `skipped`, `failed`, `successful` is incremented. -/
theorem processSuccessfulScrape_cases (env : IngestEnv) (doc : WebPageDocument)
    (s : ProcessingStats) :
    (processSuccessfulScrape env doc s).1 = { s with skipped := s.skipped + 1 } ∨
    (processSuccessfulScrape env doc s).1 = { s with failed := s.failed + 1 } ∨
    (processSuccessfulScrape env doc s).1 = { s with successful := s.successful + 1 } := by
  unfold processSuccessfulScrape
  split
  · left; rfl
  · cases env doc with
    | embedErr m => right; left; rfl
    | upsertErr m => right; left; rfl
    | ok => right; right; rfl

/-- One scrape result adds one to `processed` and one to exactly one of the
three outcome counters; `total` is untouched. -/
theorem batchStep_cases (env : IngestEnv) (acc : ProcessingStats × List PipelineEffect)
    (r : ScrapeResult) :
    ((batchStep env acc r).1.processed = acc.1.processed + 1) ∧
    ((batchStep env acc r).1.total = acc.1.total) ∧
    (((batchStep env acc r).1.successful = acc.1.successful + 1 ∧
        (batchStep env acc r).1.failed = acc.1.failed ∧
        (batchStep env acc r).1.skipped = acc.1.skipped) ∨
      ((batchStep env acc r).1.failed = acc.1.failed + 1 ∧
        (batchStep env acc r).1.successful = acc.1.successful ∧
        (batchStep env acc r).1.skipped = acc.1.skipped) ∨
      ((batchStep env acc r).1.skipped = acc.1.skipped + 1 ∧
        (batchStep env acc r).1.successful = acc.1.successful ∧
        (batchStep env acc r).1.failed = acc.1.failed)) := by
  rcases r with ⟨success, document, error⟩
  cases success with
  | false =>
    cases document with
    | none => exact ⟨rfl, rfl, Or.inr (Or.inl ⟨rfl, rfl, rfl⟩)⟩
    | some d => exact ⟨rfl, rfl, Or.inr (Or.inl ⟨rfl, rfl, rfl⟩)⟩
  | true =>
    cases document with
    | none => exact ⟨rfl, rfl, Or.inr (Or.inl ⟨rfl, rfl, rfl⟩)⟩
    | some d =>
      rcases processSuccessfulScrape_cases env d
          { acc.1 with processed := acc.1.processed + 1 } with h | h | h
      · refine ⟨?_, ?_, Or.inr (Or.inr ⟨?_, ?_, ?_⟩)⟩ <;> simp [batchStep, h]
      · refine ⟨?_, ?_, Or.inr (Or.inl ⟨?_, ?_, ?_⟩)⟩ <;> simp [batchStep, h]
      · refine ⟨?_, ?_, Or.inl ⟨?_, ?_, ?_⟩⟩ <;> simp [batchStep, h]

theorem statsInv_batchStep (env : IngestEnv) (acc : ProcessingStats × List PipelineEffect)
    (r : ScrapeResult) (h : statsInv acc.1) : statsInv (batchStep env acc r).1 := by
  obtain ⟨h1, _, h3⟩ := batchStep_cases env acc r
  unfold statsInv at h ⊢
  rcases h3 with ⟨ha, hb, hc⟩ | ⟨ha, hb, hc⟩ | ⟨ha, hb, hc⟩ <;> rw [h1, ha, hb, hc, h] <;> omega

theorem statsInv_batchFold (env : IngestEnv) :
    ∀ (results : List ScrapeResult) (acc : ProcessingStats × List PipelineEffect),
      statsInv acc.1 → statsInv (results.foldl (batchStep env) acc).1 := by
  intro results
  induction results with
  | nil => intro acc h; exact h
  | cons r rs ih =>
    intro acc h
    rw [List.foldl_cons]
    exact ih _ (statsInv_batchStep env acc r h)

theorem statsInv_processBatch (env : IngestEnv) (results : List ScrapeResult)
    (s : ProcessingStats) (h : statsInv s) : statsInv (processBatch env results s).1 :=
  statsInv_batchFold env results (s, []) h

theorem statsInv_batchesFold (env : IngestEnv) :
    ∀ (batches : List (List ScrapeResult)) (acc : ProcessingStats × List PipelineEffect),
      statsInv acc.1 → statsInv (batches.foldl (runBatchStep env) acc).1 := by
  intro batches
  induction batches with
  | nil => intro acc h; exact h
  | cons b bs ih =>
    intro acc h
    rw [List.foldl_cons]
    exact ih _ (statsInv_processBatch env b acc.1 h)

/-- C1 counterexample: the claimed invariant `processed = successful +
failed` fails on the run whose single batch contains one successfully
scraped document shorter than 100 characters — the document is counted in
`skipped`, so `processed = 1` while `successful + failed = 0`. -/
theorem c1_processed_counterexample :
    ¬ ((processBatch envOk [shortResult] (resetStats 1)).1.processed
        = (processBatch envOk [shortResult] (resetStats 1)).1.successful
          + (processBatch envOk [shortResult] (resetStats 1)).1.failed) := by
  decide

/-- C1 (amended): in every run (any environment, any batched scrape
results, stats reset with any total), after every batch the stats satisfy
`processed = successful + failed + skipped`. -/
theorem c1_stats_invariant_after_every_batch (env : IngestEnv)
    (batches : List (List ScrapeResult)) (total n : Nat) :
    statsInv (processBatches env (batches.take n) (resetStats total)).1 :=
  statsInv_batchesFold env (batches.take n) (resetStats total, []) rfl

/-- C10: every scrape result consumed by a batch increments `processed`
exactly once and exactly one of `successful`, `failed`, `skipped` (in
particular an embedding or upsert exception is absorbed into `failed` by
the per-document handler — `processSuccessfulScrape` and `batchStep` are
total functions of the environment outcome), and consequently the sum
invariant is preserved. -/
theorem c10_each_result_counted_once (env : IngestEnv) (r : ScrapeResult)
    (s : ProcessingStats) (hs : statsInv s) :
    ((processBatch env [r] s).1.processed = s.processed + 1) ∧
    ((processBatch env [r] s).1.total = s.total) ∧
    (((processBatch env [r] s).1.successful = s.successful + 1 ∧
        (processBatch env [r] s).1.failed = s.failed ∧
        (processBatch env [r] s).1.skipped = s.skipped) ∨
      ((processBatch env [r] s).1.failed = s.failed + 1 ∧
        (processBatch env [r] s).1.successful = s.successful ∧
        (processBatch env [r] s).1.skipped = s.skipped) ∨
      ((processBatch env [r] s).1.skipped = s.skipped + 1 ∧
        (processBatch env [r] s).1.successful = s.successful ∧
        (processBatch env [r] s).1.failed = s.failed)) ∧
    statsInv (processBatch env [r] s).1 := by
  have hb := batchStep_cases env (s, []) r
  have hinv := statsInv_batchStep env (s, []) r hs
  exact ⟨hb.1, hb.2.1, hb.2.2, hinv⟩

/-- Witness for C10 at a concrete input (a directly failing scrape result). -/
theorem c10_each_result_counted_once_witness :
    statsInv (resetStats 3) ∧
    (((processBatch envOk [{ success := false, document := none, error := none }]
        (resetStats 3)).1.processed = (resetStats 3).processed + 1) ∧
      ((processBatch envOk [{ success := false, document := none, error := none }]
        (resetStats 3)).1.total = (resetStats 3).total) ∧
      ((((processBatch envOk [{ success := false, document := none, error := none }]
          (resetStats 3)).1.successful = (resetStats 3).successful + 1 ∧
         (processBatch envOk [{ success := false, document := none, error := none }]
          (resetStats 3)).1.failed = (resetStats 3).failed ∧
         (processBatch envOk [{ success := false, document := none, error := none }]
          (resetStats 3)).1.skipped = (resetStats 3).skipped) ∨
        ((processBatch envOk [{ success := false, document := none, error := none }]
          (resetStats 3)).1.failed = (resetStats 3).failed + 1 ∧
         (processBatch envOk [{ success := false, document := none, error := none }]
          (resetStats 3)).1.successful = (resetStats 3).successful ∧
         (processBatch envOk [{ success := false, document := none, error := none }]
          (resetStats 3)).1.skipped = (resetStats 3).skipped) ∨
        ((processBatch envOk [{ success := false, document := none, error := none }]
          (resetStats 3)).1.skipped = (resetStats 3).skipped + 1 ∧
         (processBatch envOk [{ success := false, document := none, error := none }]
          (resetStats 3)).1.successful = (resetStats 3).successful ∧
         (processBatch envOk [{ success := false, document := none, error := none }]
          (resetStats 3)).1.failed = (resetStats 3).failed))) ∧
      statsInv (processBatch envOk [{ success := false, document := none, error := none }]
        (resetStats 3)).1) :=
  ⟨by decide,
    c10_each_result_counted_once envOk { success := false, document := none, error := none }
      (resetStats 3) (by decide)⟩

/-! ## Skipping short documents -/

/-- C8: a successfully scraped document whose content is shorter than 100
characters only increments `skipped`; no embedding call and no upsert is
issued (the returned effect list is empty). -/
theorem c8_short_content_skipped (env : IngestEnv) (doc : WebPageDocument)
    (stats : ProcessingStats) (h : doc.content.length < 100) :
    processSuccessfulScrape env doc stats
      = ({ stats with skipped := stats.skipped + 1 }, []) := by
  unfold processSuccessfulScrape
  rw [if_pos h]

/-- Witness for C8 at a concrete input. -/
theorem c8_short_content_skipped_witness :
    shortDoc.content.length < 100 ∧
    processSuccessfulScrape envOk shortDoc (resetStats 1)
      = ({ resetStats 1 with skipped := (resetStats 1).skipped + 1 }, []) :=
  ⟨by decide, c8_short_content_skipped envOk shortDoc (resetStats 1) (by decide)⟩

/-! ## Chat short circuit -/

/-- C9: with an empty search-result list the chat step returns the fixed
no-relevant-information message and issues no model call. -/
theorem c9_no_results_short_circuit (model : String → String → String) (query : String) :
    generateChatResponse model query [] = (noResultsMessage, []) := rfl

/-! ## Scrape failure shape -/

/-- C4: when the scrape attempt throws, `scrapePage` returns (it never
throws — it is a total function) a failed result whose document carries an
empty title and content, the error message (non-empty whenever the thrown
Error's message is non-empty; a non-Error value is reported as
`"Unknown error"`), and a domain equal to the URL's hostname, with fallback
`"unknown"` when the URL cannot be parsed. -/
theorem c4_scrapePage_failure_shape (parseHostname : String → Option String)
    (newId url : String) (attempt : Except JSError ExtractedContent) (e : JSError)
    (hatt : attempt = Except.error e) (hmsg : jsMessage e ≠ "") :
    (scrapePage parseHostname newId attempt url).success = false ∧
    ∃ d, (scrapePage parseHostname newId attempt url).document = some d ∧
      d.title = "" ∧ d.content = "" ∧ d.status = DocStatus.failed ∧
      d.error = some (jsMessage e) ∧ jsMessage e ≠ "" ∧
      d.domain = extractDomain parseHostname url ∧
      (∀ h, parseHostname url = some h → d.domain = h) ∧
      (parseHostname url = none → d.domain = unknownDomain) := by
  subst hatt
  refine ⟨rfl, _, rfl, rfl, rfl, rfl, rfl, hmsg, rfl, ?_, ?_⟩
  · intro host hh
    show extractDomain parseHostname url = host
    unfold extractDomain
    rw [hh]
  · intro hh
    show extractDomain parseHostname url = unknownDomain
    unfold extractDomain
    rw [hh]

/-- Witness for C4 at a concrete input: a rejected non-Error value and an
unparseable URL. -/
theorem c4_scrapePage_failure_shape_witness :
    (scrapePage (fun _ => none) urlB (Except.error JSError.nonError) urlB).success = false ∧
    ∃ d, (scrapePage (fun _ => none) urlB (Except.error JSError.nonError) urlB).document
        = some d ∧
      d.title = "" ∧ d.content = "" ∧ d.status = DocStatus.failed ∧
      d.error = some (jsMessage JSError.nonError) ∧ jsMessage JSError.nonError ≠ "" ∧
      d.domain = extractDomain (fun _ => none) urlB ∧
      (∀ h, (none : Option String) = some h → d.domain = h) ∧
      ((none : Option String) = none → d.domain = unknownDomain) :=
  c4_scrapePage_failure_shape (fun _ => none) urlB urlB
    (Except.error JSError.nonError) JSError.nonError rfl (by decide)

/-! ## Batch scheduler -/

theorem chunkGo_flatten {α : Type} {c : Nat} (hc : 0 < c) :
    ∀ (fuel : Nat) (xs : List α), xs.length ≤ fuel →
      (chunkGo c fuel xs).flatten = xs := by
  intro fuel
  induction fuel with
  | zero =>
    intro xs h
    have hx : xs = [] := List.eq_nil_of_length_eq_zero (Nat.le_zero.mp h)
    subst hx
    rfl
  | succ n ih =>
    intro xs h
    cases xs with
    | nil => rfl
    | cons x rest =>
      have hlen : ((x :: rest).drop c).length ≤ n := by
        rw [List.length_drop]
        have hxr : (x :: rest).length ≤ n + 1 := h
        omega
      show ((x :: rest).take c :: chunkGo c n ((x :: rest).drop c)).flatten = x :: rest
      rw [List.flatten_cons, ih _ hlen]
      exact List.take_append_drop c (x :: rest)

theorem scrapeMultiple_eq_map {task : String → TaskOutcome} {c : Nat} (hc : 0 < c)
    (urls : List String) :
    scrapeMultiple task c urls = urls.map (fun u => settleOutcome (task u)) := by
  unfold scrapeMultiple chunkList
  rw [← List.map_flatten]
  rw [chunkGo_flatten hc urls.length urls (le_refl _)]

/-- C3: with a positive concurrency window, `scrapeMultiple` returns
exactly one result per input URL, in input order (the i-th result settles
the i-th URL); a task-level rejection becomes a failed result with no
document in its own position and leaves every other position intact. -/
theorem c3_scrapeMultiple_positional (task : String → TaskOutcome) (c : Nat)
    (urls : List String) (hc : 0 < c) :
    scrapeMultiple task c urls = urls.map (fun u => settleOutcome (task u)) ∧
    (scrapeMultiple task c urls).length = urls.length ∧
    (∀ i : Nat, (scrapeMultiple task c urls)[i]?
        = (urls[i]?).map (fun u => settleOutcome (task u))) ∧
    (∀ u e, task u = TaskOutcome.rejected e →
      settleOutcome (task u)
        = { success := false, document := none, error := some (jsMessage e) }) := by
  have hmap := @scrapeMultiple_eq_map task c hc urls
  refine ⟨hmap, by rw [hmap]; exact List.length_map _ _, ?_, ?_⟩
  · intro i
    rw [hmap, List.getElem?_map]
  · intro u e h
    rw [h]
    rfl

/-- Witness for C3 at a concrete input: three URLs, window size 2, the
middle task rejecting. -/
theorem c3_scrapeMultiple_positional_witness :
    0 < 2 ∧
    (scrapeMultiple taskEx 2 urlsEx = urlsEx.map (fun u => settleOutcome (taskEx u)) ∧
      (scrapeMultiple taskEx 2 urlsEx).length = urlsEx.length ∧
      (∀ i : Nat, (scrapeMultiple taskEx 2 urlsEx)[i]?
          = (urlsEx[i]?).map (fun u => settleOutcome (taskEx u))) ∧
      (∀ u e, taskEx u = TaskOutcome.rejected e →
        settleOutcome (taskEx u)
          = { success := false, document := none, error := some (jsMessage e) })) :=
  ⟨by decide, c3_scrapeMultiple_positional taskEx 2 urlsEx (by decide)⟩

/-! ## Reciprocal rank fusion -/

theorem addQ_eq_add (a b : ℚ) : addQ a b = a + b := by
  have ha : (a.den : ℚ) ≠ 0 := Nat.cast_ne_zero.mpr a.den_nz
  have hb : (b.den : ℚ) ≠ 0 := Nat.cast_ne_zero.mpr b.den_nz
  unfold addQ
  rw [Rat.mkRat_eq_div]
  push_cast
  conv_rhs => rw [← Rat.num_div_den a, ← Rat.num_div_den b]
  rw [div_add_div _ _ ha hb]
  ring_nf

theorem rrfTerm_of_not_mem {l : List Nat} {x : Nat} (h : x ∉ l) : rrfTerm l x = 0 := by
  unfold rrfTerm rrfRank
  have hnone : List.findIdx? (fun y => y == x) l = none := by
    refine List.findIdx?_eq_none_iff.mpr ?_
    intro z hz
    simp only [beq_eq_false_iff_ne]
    exact fun he => h (he ▸ hz)
  rw [hnone]

theorem rrfFuse_sorted (dense sparse : List Nat) (limit : Nat) :
    (rrfFuse dense sparse limit).Sorted (rrfDesc dense sparse) := by
  haveI : IsTotal Nat (rrfDesc dense sparse) := ⟨fun a b => le_total _ _⟩
  haveI : IsTrans Nat (rrfDesc dense sparse) := ⟨fun a b c h1 h2 => le_trans h2 h1⟩
  have hs := List.sorted_insertionSort (rrfDesc dense sparse) (rrfCandidates dense sparse)
  exact List.Pairwise.sublist (List.take_sublist _ _) hs

/-- Every candidate outside the returned top segment scores no higher than
any returned candidate. -/
theorem rrfFuse_top (dense sparse : List Nat) (limit : Nat) {x y : Nat}
    (hx : x ∈ rrfFuse dense sparse limit) (hy : y ∈ rrfCandidates dense sparse)
    (hyn : y ∉ rrfFuse dense sparse limit) :
    rrfScore dense sparse y ≤ rrfScore dense sparse x := by
  haveI : IsTotal Nat (rrfDesc dense sparse) := ⟨fun a b => le_total _ _⟩
  haveI : IsTrans Nat (rrfDesc dense sparse) := ⟨fun a b c h1 h2 => le_trans h2 h1⟩
  have hsorted : (List.insertionSort (rrfDesc dense sparse)
      (rrfCandidates dense sparse)).Pairwise (rrfDesc dense sparse) :=
    List.sorted_insertionSort _ _
  have hyL : y ∈ List.insertionSort (rrfDesc dense sparse) (rrfCandidates dense sparse) :=
    ((List.perm_insertionSort _ _).mem_iff).mpr hy
  have hdecomp :
      (List.insertionSort (rrfDesc dense sparse) (rrfCandidates dense sparse)).take limit
        ++ (List.insertionSort (rrfDesc dense sparse) (rrfCandidates dense sparse)).drop limit
      = List.insertionSort (rrfDesc dense sparse) (rrfCandidates dense sparse) :=
    List.take_append_drop _ _
  have hpw : ((List.insertionSort (rrfDesc dense sparse) (rrfCandidates dense sparse)).take limit
        ++ (List.insertionSort (rrfDesc dense sparse)
            (rrfCandidates dense sparse)).drop limit).Pairwise (rrfDesc dense sparse) := by
    rw [hdecomp]
    exact hsorted
  have hyd : y ∈ (List.insertionSort (rrfDesc dense sparse)
      (rrfCandidates dense sparse)).drop limit := by
    have hmem := hyL
    rw [← hdecomp] at hmem
    rcases List.mem_append.mp hmem with h1 | h1
    · exact absurd h1 hyn
    · exact h1
  exact ((List.pairwise_append.mp hpw).2.2) x hx y hyd

theorem rrfFuse_length (dense sparse : List Nat) (limit : Nat) :
    (rrfFuse dense sparse limit).length = min limit (rrfCandidates dense sparse).length := by
  unfold rrfFuse
  rw [List.length_take, (List.perm_insertionSort _ _).length_eq]

theorem rrfScore_example_x : rrfScore [0, 1, 2] [1, 0, 3] 0 = 1/61 + 1/62 := by
  have h1 : rrfTerm [0, 1, 2] 0 = mkRat 1 61 := by decide
  have h2 : rrfTerm [1, 0, 3] 0 = mkRat 1 62 := by decide
  unfold rrfScore
  rw [h1, h2, addQ_eq_add, Rat.mkRat_eq_div, Rat.mkRat_eq_div]
  norm_num

theorem rrfScore_example_y : rrfScore [0, 1, 2] [1, 0, 3] 1 = 1/62 + 1/61 := by
  have h1 : rrfTerm [0, 1, 2] 1 = mkRat 1 62 := by decide
  have h2 : rrfTerm [1, 0, 3] 1 = mkRat 1 61 := by decide
  unfold rrfScore
  rw [h1, h2, addQ_eq_add, Rat.mkRat_eq_div, Rat.mkRat_eq_div]
  norm_num

theorem rrfScore_example_z : rrfScore [0, 1, 2] [1, 0, 3] 2 = 1/63 := by
  have h1 : rrfTerm [0, 1, 2] 2 = mkRat 1 63 := by decide
  have h2 : rrfTerm [1, 0, 3] 2 = 0 := by decide
  unfold rrfScore
  rw [h1, h2, addQ_eq_add, Rat.mkRat_eq_div, add_zero]
  norm_num

theorem rrfScore_example_w : rrfScore [0, 1, 2] [1, 0, 3] 3 = 1/63 := by
  have h1 : rrfTerm [0, 1, 2] 3 = 0 := by decide
  have h2 : rrfTerm [1, 0, 3] 3 = mkRat 1 63 := by decide
  unfold rrfScore
  rw [h1, h2, addQ_eq_add, Rat.mkRat_eq_div, zero_add]
  norm_num

/-- C5 (modelled from the spec, since the fusion runs inside the external
vector store): every candidate's fused score is the sum over the ranked
lists in which it appears of `1 / (60 + rank)`; a candidate in only one
list scores by that list's term alone; the fused result is sorted by score
descending and consists of the top `limit` candidates; and on the spec's
example rankings the scores are `1/61 + 1/62`, `1/62 + 1/61`, `1/63` and
`1/63`. -/
theorem c5_rrf_fusion (dense sparse : List Nat) (limit : Nat) (x y : Nat)
    (hx : x ∈ rrfFuse dense sparse limit)
    (hy : y ∈ rrfCandidates dense sparse)
    (hyn : y ∉ rrfFuse dense sparse limit) :
    (∀ z, rrfScore dense sparse z = rrfTerm dense z + rrfTerm sparse z) ∧
    (∀ z, z ∉ sparse → rrfScore dense sparse z = rrfTerm dense z) ∧
    (∀ z, z ∉ dense → rrfScore dense sparse z = rrfTerm sparse z) ∧
    (rrfFuse dense sparse limit).Sorted (rrfDesc dense sparse) ∧
    rrfScore dense sparse y ≤ rrfScore dense sparse x ∧
    (rrfFuse dense sparse limit).length = min limit (rrfCandidates dense sparse).length ∧
    rrfScore [0, 1, 2] [1, 0, 3] 0 = 1/61 + 1/62 ∧
    rrfScore [0, 1, 2] [1, 0, 3] 1 = 1/62 + 1/61 ∧
    rrfScore [0, 1, 2] [1, 0, 3] 2 = 1/63 ∧
    rrfScore [0, 1, 2] [1, 0, 3] 3 = 1/63 := by
  refine ⟨fun z => addQ_eq_add _ _, ?_, ?_, rrfFuse_sorted _ _ _,
    rrfFuse_top _ _ _ hx hy hyn, rrfFuse_length _ _ _,
    rrfScore_example_x, rrfScore_example_y, rrfScore_example_z, rrfScore_example_w⟩
  · intro z hz
    unfold rrfScore
    rw [addQ_eq_add, rrfTerm_of_not_mem hz, add_zero]
  · intro z hz
    unfold rrfScore
    rw [addQ_eq_add, rrfTerm_of_not_mem hz, zero_add]

/-- Witness for C5 at the spec's example rankings: limit 2, a returned
candidate and a dropped one. -/
theorem c5_rrf_fusion_witness :
    (1 ∈ rrfFuse [0, 1, 2] [1, 0, 3] 2) ∧
    (2 ∈ rrfCandidates [0, 1, 2] [1, 0, 3]) ∧
    (2 ∉ rrfFuse [0, 1, 2] [1, 0, 3] 2) ∧
    ((∀ z, rrfScore [0, 1, 2] [1, 0, 3] z
        = rrfTerm [0, 1, 2] z + rrfTerm [1, 0, 3] z) ∧
      (∀ z, z ∉ [1, 0, 3] → rrfScore [0, 1, 2] [1, 0, 3] z = rrfTerm [0, 1, 2] z) ∧
      (∀ z, z ∉ [0, 1, 2] → rrfScore [0, 1, 2] [1, 0, 3] z = rrfTerm [1, 0, 3] z) ∧
      (rrfFuse [0, 1, 2] [1, 0, 3] 2).Sorted (rrfDesc [0, 1, 2] [1, 0, 3]) ∧
      rrfScore [0, 1, 2] [1, 0, 3] 2 ≤ rrfScore [0, 1, 2] [1, 0, 3] 1 ∧
      (rrfFuse [0, 1, 2] [1, 0, 3] 2).length = min 2 (rrfCandidates [0, 1, 2] [1, 0, 3]).length ∧
      rrfScore [0, 1, 2] [1, 0, 3] 0 = 1/61 + 1/62 ∧
      rrfScore [0, 1, 2] [1, 0, 3] 1 = 1/62 + 1/61 ∧
      rrfScore [0, 1, 2] [1, 0, 3] 2 = 1/63 ∧
      rrfScore [0, 1, 2] [1, 0, 3] 3 = 1/63) :=
  ⟨by decide, by decide, by decide,
    c5_rrf_fusion [0, 1, 2] [1, 0, 3] 2 1 2 (by decide) (by decide) (by decide)⟩
